import Mathlib

/-!
Verification of the external-memory sparse-page source
(`src/data/sparse_page_source.cc`).

The development shallowly embeds the code of `sparse_page_source.cc`:

* the page-source reader (`SparsePageSource::Next`, `::BeforeFirst`) becomes a
  state machine on `SparsePageSource` below, with each per-shard prefetcher
  abstracted to the list of pages its stream decodes plus a read position
  (the prefetch pipeline delivers the shard's pages in FIFO order; the
  4-page bound, the background thread and buffer recycling only affect
  buffer reuse and timing, never which pages are delivered);
* the streaming builder (`SparsePageSource::CreateRowPage` over a
  `dmlc::Parser`) becomes a fold over the list of parsed row blocks;
* the matrix builder (`SparsePageSource::CreatePageFromDMatrix`) becomes a
  fold over the list of in-memory batches, with the external
  `SparsePage::Push/GetTranspose/SortRows` calls kept abstract;
* machine integers are `Nat` with an explicit `% 2 ^ 32` exactly where the
  32-bit arithmetic of the source can wrap (`index + 1` on a `uint32_t`
  column index, `++group_size` on a `bst_uint`); query ids are `uint64_t`
  values compared only for equality, so they are plain `Nat`s and the
  sentinel is the concrete value `2 ^ 64 - 1`;
* fatal `CHECK`/`LOG(FATAL)` paths return `BuilderResult.fatal` instead of
  aborting the process.

Floating-point payloads (labels, weights, entry values) are never inspected
by any of the verified properties; they are carried as opaque `Int`
stand-ins or omitted where only their count matters.
-/

/-! ## Error kinds (spec section 7) -/

/-- Fatal error kinds raised by the code under verification. -/
inductive BuilderError where
  | BadCacheSpec
  | UnknownPageType
  | GroupInvariant
  deriving DecidableEq

/-- Result of a code path that may hit a fatal `CHECK` / `LOG(FATAL)`. -/
inductive BuilderResult (α : Type) where
  | ok : α → BuilderResult α
  | fatal : BuilderError → BuilderResult α
  deriving DecidableEq

/-! ## SparsePage (external collaborator, used through its contract)

Only the row count (`SparsePage::Size()`), the stored-entry list
(`page->data`, we keep the column index of each entry; the `float` value is
opaque payload) and the stamped `base_rowid` are observable by the verified
properties. -/

structure SparsePage where
  base_rowid : Nat
  rows : Nat
  data : List Nat
  deriving DecidableEq

/-- A freshly allocated/cleared page (`writer.Alloc(&page); page->Clear()`). -/
def emptyPage : SparsePage := ⟨0, 0, []⟩

/-! ## The page-source reader (lines 41-105) -/

/-- Cursor state of `SparsePageSource`.  `shards` is the per-shard sequence of
pages decoded from the cache file (the contents a prefetcher will deliver in
FIFO order), `pos` is the per-shard number of pages already consumed (the
stream position relative to `fbegin`). -/
structure SparsePageSource where
  shards : List (List SparsePage)
  pos : List Nat
  base_rowid : Nat
  clock_ptr : Nat
  page : Option SparsePage
  deriving DecidableEq

/-- Constructor state (lines 41-76): `base_rowid_(0)`, `page_(nullptr)`,
`clock_ptr_(0)`, each shard's stream positioned at `fbegin`. -/
def initSource (shards : List (List SparsePage)) : SparsePageSource :=
  { shards := shards
    pos := List.replicate shards.length 0
    base_rowid := 0
    clock_ptr := 0
    page := none }

/-- `SparsePageSource::Next` (lines 82-97).  Recycling the previously held
page into shard `(clock_ptr + n - 1) % n` returns a buffer to that shard's
free list; it never changes which pages the prefetchers deliver, so it has no
effect on this state beyond clearing `page_` (dmlc `Recycle` nulls the
pointer, and a failed prefetcher `Next` leaves it null). -/
def SparsePageSource.Next (r : SparsePageSource) : Bool × SparsePageSource :=
  let shard := r.shards.getD r.clock_ptr []
  let p := r.pos.getD r.clock_ptr 0
  match shard.get? p with
  | some pg =>
      (true,
        { r with
          page := some { pg with base_rowid := r.base_rowid }
          pos := r.pos.set r.clock_ptr (p + 1)
          base_rowid := r.base_rowid + pg.rows
          clock_ptr := (r.clock_ptr + 1) % r.shards.length })
  | none => (false, { r with page := none })

/-- `SparsePageSource::BeforeFirst` (lines 99-105): reset `base_rowid_` and
`clock_ptr_`, call `BeforeFirst` on every prefetcher (each shard's stream is
seeked back to `fbegin`, i.e. every read position becomes `0`). -/
def SparsePageSource.BeforeFirst (r : SparsePageSource) : SparsePageSource :=
  { r with
    base_rowid := 0
    clock_ptr := 0
    pos := List.replicate r.shards.length 0 }

/-- State after `n` calls to `Next` (discarding the returned booleans). -/
def SparsePageSource.iter (r : SparsePageSource) : Nat → SparsePageSource
  | 0 => r
  | n + 1 => ((r.iter n).Next).2

/-- Result of the `(j+1)`-st call to `Next` (0-indexed call number `j`). -/
def resultAt (r : SparsePageSource) (j : Nat) : Bool :=
  ((r.iter j).Next).1

/-- Number of pages held by shard `i`. -/
def lenAt (s : List (List SparsePage)) (i : Nat) : Nat :=
  (s.getD i []).length

/-- The page the round-robin rotation reads at step `j`: the `(j / k)`-th page
of shard `j % k`. -/
def pageAt (s : List (List SparsePage)) (j : Nat) : SparsePage :=
  (s.getD (j % s.length) []).getD (j / s.length) emptyPage

/-- Total row count of the pages consumed in steps `0 … j-1`. -/
def sumSizes (s : List (List SparsePage)) (j : Nat) : Nat :=
  ((List.range j).map fun m => (pageAt s m).rows).sum

/-- The page yielded by the `j`-th successful `Next`: the round-robin page
stamped with the running global row offset. -/
def stampedAt (s : List (List SparsePage)) (j : Nat) : SparsePage :=
  { pageAt s j with base_rowid := sumSizes s j }

/-- How many pages shard `i` has consumed after `j` successful steps of the
clock rotation over `k` shards. -/
def cnt (k j i : Nat) : Nat :=
  j / k + if i < j % k then 1 else 0

/-! ## Cache-spec resolution (lines 21-34, 45-46)

`xgboost::common::Split` lives in `src/common/common.h`, which is not part of
the excerpt; it is modelled from the spec below. -/

/-- Splitting a character list at a delimiter, keeping every (possibly empty)
component; `splitChars d cs []` mirrors repeated `std::getline` on a stream
that still has a component after the last delimiter. -/
def splitChars (d : Char) : List Char → List Char → List (List Char)
  | [], acc => [acc.reverse]
  | c :: cs, acc =>
      if c = d then acc.reverse :: splitChars d cs []
      else splitChars d cs (c :: acc)

/-- Modelled from the spec: `xgboost::common::Split` (declared in
`src/common/common.h`, not part of the excerpt) splits a string on a
delimiter with `std::getline` semantics, which the spec's grammar
`spec := prefix (":" prefix)+` and its examples pin down: the empty string
yields no components and a trailing delimiter yields no trailing empty
component. -/
def commonSplit (s : String) (d : Char) : List String :=
  match s.data with
  | [] => []
  | c :: cs =>
      (if (c :: cs).getLast? = some d
        then (splitChars d (c :: cs) []).dropLast
        else splitChars d (c :: cs) []).map List.asString

/-- `GetCacheShards` (lines 21-34), the branch compiled on platforms without
drive letters: a plain split on `':'`. -/
def GetCacheShardsUnix (cache_info : String) : List String :=
  commonSplit cache_info ':'

/-- `GetCacheShards` (lines 21-34), the branch compiled under `_WIN32` /
`__CYGWIN__`: a leading alphabetic character (classical locale) followed by
`':'` is treated as a drive letter and glued back onto the first component of
the split of the remainder.  When that split of the remainder is empty (input
exactly `"X:"`), the write `cache_shards[0] = ...` in the C++ indexes an
empty vector; that undefined behaviour is modelled as `none`. -/
def GetCacheShardsWin (cache_info : String) : Option (List String) :=
  match cache_info.data with
  | c1 :: c2 :: rest =>
      if c1.isAlpha ∧ c2 = ':' then
        match commonSplit rest.asString ':' with
        | [] => none
        | h :: t => some ((String.mk [c1, c2] ++ h) :: t)
      else some (GetCacheShardsUnix cache_info)
  | _ => some (GetCacheShardsUnix cache_info)

/-- `CHECK_NE(cache_shards.size(), 0U)` after resolution (line 46 in the
reader constructor; the same check guards lines 114, 132 and 226). -/
def checkedCacheShardsUnix (cache_info : String) : BuilderResult (List String) :=
  let cs := GetCacheShardsUnix cache_info
  if cs.length = 0 then .fatal .BadCacheSpec else .ok cs

/-! ## MetaInfo and row blocks (external collaborators) -/

/-- The `MetaInfo` fields touched by the builders.  Label and weight values
are `float` payload in the source; they are carried as opaque `Int`
stand-ins (no verified property inspects them). -/
structure MetaInfo where
  labels : List Int := []
  weights : List Int := []
  qids : List Nat := []
  group_ptr : List Nat := []
  num_row : Nat := 0
  num_col : Nat := 0
  num_nonzero : Nat := 0
  deriving DecidableEq

/-- One `dmlc::RowBlock<uint32_t>` yielded by the upstream parser.  `offset`
is the CSR offset array (length `size + 1` for well-formed blocks), `index`
the `uint32_t` column indices of the nonzeros; the `value` array is opaque
`float` payload and is omitted (no verified property inspects entry
values). -/
structure RowBlock where
  size : Nat
  label : Option (List Int) := none
  weight : Option (List Int) := none
  qid : Option (List Nat) := none
  offset : List Nat := []
  index : List Nat := []
  deriving DecidableEq

/-- `batch.offset[batch.size] - batch.offset[0]`: the nonzero count of the
block (line 179). -/
def blockNonzero (b : RowBlock) : Nat :=
  b.offset.getD b.size 0 - b.offset.getD 0 0

/-- The column indices `batch.index[i]` for `i ∈ [offset[0], offset[size])`
(the range iterated by lines 180-184). -/
def blockIndexSlice (b : RowBlock) : List Nat :=
  (b.index.drop (b.offset.getD 0 0)).take (blockNonzero b)

/-- Modelled from the spec: `SparsePage::Push(const dmlc::RowBlock&)`
(external to the excerpt) appends the block's rows to the page; we track the
row count and the entry column indices. -/
def SparsePage.push (p : SparsePage) (b : RowBlock) : SparsePage :=
  { p with rows := p.rows + b.size, data := p.data ++ blockIndexSlice b }

/-! ## The streaming row-page builder (`CreateRowPage`, lines 128-220) -/

/-- `std::numeric_limits<uint64_t>::max()`, the `last_group_id` sentinel
(lines 152-153). -/
def default_max : Nat := 2 ^ 64 - 1

/-- The group-tracking state of the builder loop: `info.group_ptr_`,
`last_group_id` and `group_size`. -/
structure GroupState where
  group_ptr : List Nat
  last_group_id : Nat
  group_size : Nat
  deriving DecidableEq

/-- One iteration of the qid loop (lines 169-176): push the running
`group_size` on a group change (or while `last_group_id` still holds the
sentinel), record the qid, and increment the `bst_uint` counter (32-bit
wrap-around made explicit). -/
def groupStep (st : GroupState) (q : Nat) : GroupState :=
  { group_ptr :=
      if st.last_group_id = default_max ∨ st.last_group_id ≠ q
        then st.group_ptr ++ [st.group_size] else st.group_ptr
    last_group_id := q
    group_size := (st.group_size + 1) % 2 ^ 32 }

/-- Closing the final group after the loop (lines 201-205).  The source
reads `info.group_ptr_.back()`, which requires `group_ptr` to be non-empty;
that bound is discharged by the C10 theorem below, so the total `getLastD`
here is only ever applied to a non-empty list under the guard. -/
def closeGroupPtr (g : GroupState) : List Nat :=
  if g.last_group_id ≠ default_max then
    if g.group_size > g.group_ptr.getLastD 0 then g.group_ptr ++ [g.group_size]
    else g.group_ptr
  else g.group_ptr

/-- The `group_ptr` produced by the builder for a given concatenated qid
stream: the qid loop folded from the initial sentinel state, then the
final-group close. -/
def finalGroupPtr (qs : List Nat) : List Nat :=
  closeGroupPtr (qs.foldl groupStep ⟨[], default_max, 0⟩)

/-- One iteration of the column-count loop (lines 180-184):
`num_col_ = max(num_col_, uint64_t(index + 1))` where `index + 1` is
computed on the `uint32_t` before widening, hence the `% 2 ^ 32`. -/
def numColStep (c i : Nat) : Nat :=
  max c ((i + 1) % 2 ^ 32)

/-- `num_col_` accumulated over a list of column indices from `0`. -/
def numColOf (idxs : List Nat) : Nat :=
  idxs.foldl numColStep 0

/-- Label accumulation (lines 158-161). -/
def addLabels (info : MetaInfo) : Option (List Int) → MetaInfo
  | none => info
  | some ls => { info with labels := info.labels ++ ls }

/-- Weight accumulation (lines 162-165). -/
def addWeights (info : MetaInfo) : Option (List Int) → MetaInfo
  | none => info
  | some ws => { info with weights := info.weights ++ ws }

/-- Qid accumulation (line 167). -/
def addQidList (info : MetaInfo) : Option (List Nat) → MetaInfo
  | none => info
  | some qs => { info with qids := info.qids ++ qs }

/-- Count accumulation (lines 178-184). -/
def addCounts (info : MetaInfo) (b : RowBlock) : MetaInfo :=
  { info with
    num_row := info.num_row + b.size
    num_nonzero := info.num_nonzero + blockNonzero b
    num_col := (blockIndexSlice b).foldl numColStep info.num_col }

/-- The group state folded over a block's qid array, if present
(lines 166-177; a block without qids leaves the state untouched). -/
def stepQids (g : GroupState) : Option (List Nat) → GroupState
  | none => g
  | some qs => qs.foldl groupStep g

/-- Loop state of `CreateRowPage`: pages handed to the writer so far, the
page being filled, the accumulated `MetaInfo`, and the group-tracking
locals. -/
structure BuildState where
  written : List SparsePage
  page : SparsePage
  info : MetaInfo
  last_group_id : Nat
  group_size : Nat
  deriving DecidableEq

/-- State before the loop (lines 140-154). -/
def initBuild : BuildState :=
  { written := [], page := emptyPage, info := {}
    last_group_id := default_max, group_size := 0 }

/-- The group-tracking components of a builder state. -/
def qidGroupState (st : BuildState) : GroupState :=
  ⟨st.info.group_ptr, st.last_group_id, st.group_size⟩

/-- One iteration of the `while (src->Next())` loop of `CreateRowPage`
(lines 156-200) on one parsed row block.  `memCost` is the external
`SparsePage::MemCostBytes()` and `pageSize` the constant `kPageSize` from
the header (both outside the excerpt, so both are parameters); when the
filled page reaches the threshold it is handed to the writer and a cleared
page is allocated. -/
def rowPageStep (memCost : SparsePage → Nat) (pageSize : Nat)
    (st : BuildState) (b : RowBlock) : BuildState :=
  let g := stepQids (qidGroupState st) b.qid
  let info :=
    addCounts
      { addQidList (addWeights (addLabels st.info b.label) b.weight) b.qid with
        group_ptr := g.group_ptr } b
  let page := st.page.push b
  if memCost page ≥ pageSize then
    { written := st.written ++ [page], page := emptyPage, info := info
      last_group_id := g.last_group_id, group_size := g.group_size }
  else
    { written := st.written, page := page, info := info
      last_group_id := g.last_group_id, group_size := g.group_size }

/-- The builder-loop state after consuming all row blocks of the source. -/
def rowPageState (memCost : SparsePage → Nat) (pageSize : Nat)
    (blocks : List RowBlock) : BuildState :=
  blocks.foldl (rowPageStep memCost pageSize) initBuild

/-- The `MetaInfo` of `CreateRowPage` after the final-group close
(lines 201-205). -/
def rowPageInfo (memCost : SparsePage → Nat) (pageSize : Nat)
    (blocks : List RowBlock) : MetaInfo :=
  let st := rowPageState memCost pageSize blocks
  { st.info with
    group_ptr := closeGroupPtr ⟨st.info.group_ptr, st.last_group_id, st.group_size⟩ }

/-- The full sequence of pages handed to the writer by `CreateRowPage`: the
pages flushed inside the loop, then the trailing page iff
`page->data.Size() != 0` (lines 207-209). -/
def rowPagePages (memCost : SparsePage → Nat) (pageSize : Nat)
    (blocks : List RowBlock) : List SparsePage :=
  let st := rowPageState memCost pageSize blocks
  if st.page.data.length ≠ 0 then st.written ++ [st.page] else st.written

/-- `SparsePageSource::CreateRowPage(dmlc::Parser*, ...)` (lines 128-220):
run the loop, close the final group, flush a non-empty trailing page, then
write the metadata file guarded by
`CHECK(info.qids_.empty() || info.qids_.size() == info.num_row_)`
(line 216). -/
def CreateRowPage (memCost : SparsePage → Nat) (pageSize : Nat)
    (blocks : List RowBlock) : BuilderResult (MetaInfo × List SparsePage) :=
  let info := rowPageInfo memCost pageSize blocks
  if info.qids = [] ∨ info.qids.length = info.num_row then
    .ok (info, rowPagePages memCost pageSize blocks)
  else .fatal .GroupInvariant

/-! ## The matrix builder (`CreatePageFromDMatrix`, lines 222-278) -/

/-- The argument handed to the external `page->Push(...)` call for one batch:
the batch as-is, its transpose (`batch.GetTranspose(num_col)`), or the
transpose with rows sorted (`tmp.SortRows()`).  The transforms themselves
are external `SparsePage` operations, kept abstract. -/
inductive PushSource where
  | asIs : SparsePage → PushSource
  | transpose : SparsePage → Nat → PushSource
  | sortedTranspose : SparsePage → Nat → PushSource
  deriving DecidableEq

/-- The page-type dispatch of `CreatePageFromDMatrix` (lines 243-254): map
the selector string to the pushed transform, or fail fatally with
`LOG(FATAL) << "Unknown page type: ..."`. -/
def dispatchPageType (page_type : String) (batch : SparsePage) (num_col : Nat) :
    BuilderResult PushSource :=
  if page_type = ".row.page" then .ok (.asIs batch)
  else if page_type = ".col.page" then .ok (.transpose batch num_col)
  else if page_type = ".sorted.col.page" then .ok (.sortedTranspose batch num_col)
  else .fatal .UnknownPageType

/-- The `for (auto& batch : src->GetRowBatches())` loop of
`CreatePageFromDMatrix` (lines 243-266).  `pushFn` is the external
`SparsePage::Push` applied to the dispatched transform; `memCost` and
`pageSize` as in `rowPageStep`.  The accumulator is
`(pages handed to the writer, page being filled)`. -/
def dmatrixLoop (pushFn : SparsePage → PushSource → SparsePage)
    (memCost : SparsePage → Nat) (pageSize : Nat)
    (page_type : String) (num_col : Nat) :
    List SparsePage → List SparsePage × SparsePage →
    BuilderResult (List SparsePage × SparsePage)
  | [], st => .ok st
  | b :: bs, st =>
    match dispatchPageType page_type b num_col with
    | .fatal e => .fatal e
    | .ok src =>
        let page := pushFn st.2 src
        if memCost page ≥ pageSize then
          dmatrixLoop pushFn memCost pageSize page_type num_col bs
            (st.1 ++ [page], emptyPage)
        else
          dmatrixLoop pushFn memCost pageSize page_type num_col bs (st.1, page)

/-- `SparsePageSource::CreatePageFromDMatrix` (lines 222-278): run the batch
loop, flush the trailing page iff `page->data.Size() != 0` (lines 267-269),
then write the metadata file: magic tag followed by `info.SaveBinary`
verbatim — lines 271-275 perform no qid/num_row check. -/
def CreatePageFromDMatrix (pushFn : SparsePage → PushSource → SparsePage)
    (memCost : SparsePage → Nat) (pageSize : Nat)
    (page_type : String) (info : MetaInfo) (batches : List SparsePage) :
    BuilderResult (MetaInfo × List SparsePage) :=
  match dmatrixLoop pushFn memCost pageSize page_type info.num_col batches ([], emptyPage) with
  | .fatal e => .fatal e
  | .ok st =>
      .ok (info, if st.2.data.length ≠ 0 then st.1 ++ [st.2] else st.1)

/-! ## The claims' own wording, for refinement comparison -/

/-- Group-tracking state as described by claim C3: the last previously seen
qid (`none` before any qid has been observed). -/
structure ClaimGroupState where
  group_ptr : List Nat
  seen : Option Nat
  group_size : Nat
  deriving DecidableEq

/-- Modelled from the claim's words (C3): append the running counter for
every row whose qid differs from the previously seen qid, including the very
first qid observed; the counter increments for every row (same `bst_uint`
counter as the code). -/
def claimedGroupStep (st : ClaimGroupState) (q : Nat) : ClaimGroupState :=
  { group_ptr :=
      if st.seen = none ∨ st.seen ≠ some q
        then st.group_ptr ++ [st.group_size] else st.group_ptr
    seen := some q
    group_size := (st.group_size + 1) % 2 ^ 32 }

/-- Modelled from the claim's words (C3): after the loop, if any qid was
seen, `group_size` is appended once more when it exceeds the last recorded
boundary. -/
def claimedGroupPtr (qs : List Nat) : List Nat :=
  let st := qs.foldl claimedGroupStep ⟨[], none, 0⟩
  if st.seen ≠ none ∧ st.group_size > st.group_ptr.getLastD 0
    then st.group_ptr ++ [st.group_size] else st.group_ptr

/-- Modelled from the claim's words (C8): `num_col = 1 + max(index)` across
all nonzeros, and `0` for a zero-nonzero input. -/
def claimedNumCol (idxs : List Nat) : Nat :=
  if idxs = [] then 0 else idxs.foldl max 0 + 1

/-! ## The reader's clock-rotation invariant -/

/-- Invariant of the reader state after `j` successful `Next` calls of a pass
over the shard contents `s`: the shard streams are untouched, shard `i` has
consumed `cnt s.length j i` pages, the clock points at shard `j % k`, and the
global row offset is the total size of the consumed pages. -/
def ReaderInv (s : List (List SparsePage)) (j : Nat) (r : SparsePageSource) : Prop :=
  r.shards = s ∧
  r.pos.length = s.length ∧
  (∀ i, i < s.length → r.pos.getD i 0 = cnt s.length j i) ∧
  r.clock_ptr = j % s.length ∧
  r.base_rowid = sumSizes s j

/-! # Theorems -/

/-! ## List helpers -/

theorem getD_replicate_zero : ∀ (n i : Nat), (List.replicate n 0).getD i 0 = 0
  | 0, _ => rfl
  | _ + 1, 0 => rfl
  | n + 1, i + 1 => getD_replicate_zero n i

theorem getD_set_self : ∀ (l : List Nat) (m v : Nat), m < l.length →
    (l.set m v).getD m 0 = v
  | _ :: _, 0, _, _ => rfl
  | _ :: t, m + 1, v, h => getD_set_self t m v (by simpa using h)

theorem getD_set_ne : ∀ (l : List Nat) (m i v : Nat), i ≠ m →
    (l.set m v).getD i 0 = l.getD i 0
  | [], _, _, _, _ => rfl
  | _ :: _, 0, 0, _, h => absurd rfl h
  | _ :: _, 0, _ + 1, _, _ => rfl
  | _ :: _, _ + 1, 0, _, _ => rfl
  | _ :: t, m + 1, i + 1, v, h => getD_set_ne t m i v (fun e => h (by omega))

/-! ## Arithmetic of the clock rotation -/

theorem succ_div_mod_eq {k j : Nat} (hk : 0 < k) (h : j % k + 1 = k) :
    (j + 1) % k = 0 ∧ (j + 1) / k = j / k + 1 := by
  have e : j + 1 = k * (j / k + 1) := by
    have hd := Nat.div_add_mod j k
    rw [Nat.mul_succ]
    omega
  constructor
  · rw [e]; exact Nat.mul_mod_right k (j / k + 1)
  · rw [e]; exact Nat.mul_div_cancel_left _ hk

theorem succ_div_mod_lt {k j : Nat} (hk : 0 < k) (h : j % k + 1 < k) :
    (j + 1) % k = j % k + 1 ∧ (j + 1) / k = j / k := by
  have e : j + 1 = (j % k + 1) + k * (j / k) := by
    have hd := Nat.div_add_mod j k
    omega
  constructor
  · rw [e, Nat.add_mul_mod_self_left]
    exact Nat.mod_eq_of_lt h
  · rw [e, Nat.add_mul_div_left _ _ hk, Nat.div_eq_of_lt h]
    omega

theorem mod_succ_mod {k : Nat} (j : Nat) (hk : 0 < k) :
    (j + 1) % k = (j % k + 1) % k := by
  have hm : j % k < k := Nat.mod_lt _ hk
  rcases Nat.lt_or_ge (j % k + 1) k with h | h
  · rw [(succ_div_mod_lt hk h).1, Nat.mod_eq_of_lt h]
  · have h' : j % k + 1 = k := by omega
    rw [(succ_div_mod_eq hk h').1, h', Nat.mod_self]

theorem cnt_zero (k i : Nat) : cnt k 0 i = 0 := by
  unfold cnt
  simp

theorem cnt_self (k j : Nat) : cnt k j (j % k) = j / k := by
  unfold cnt
  simp

theorem cnt_succ {k i : Nat} (j : Nat) (hk : 0 < k) (hi : i < k) :
    cnt k (j + 1) i = if i = j % k then cnt k j i + 1 else cnt k j i := by
  have hm : j % k < k := Nat.mod_lt _ hk
  unfold cnt
  rcases Nat.lt_or_ge (j % k + 1) k with h | h
  · obtain ⟨h1, h2⟩ := succ_div_mod_lt hk h
    rw [h1, h2]
    split_ifs <;> omega
  · have h' : j % k + 1 = k := by omega
    obtain ⟨h1, h2⟩ := succ_div_mod_eq hk h'
    rw [h1, h2]
    split_ifs <;> omega

theorem sumSizes_succ (s : List (List SparsePage)) (j : Nat) :
    sumSizes s (j + 1) = sumSizes s j + (pageAt s j).rows := by
  unfold sumSizes
  rw [List.range_succ, List.map_append, List.sum_append]
  simp

/-! ## Group-pointer helpers -/

theorem groupStep_append (g : GroupState) (q : Nat) :
    ∃ t, (groupStep g q).group_ptr = g.group_ptr ++ t := by
  unfold groupStep
  split_ifs with h
  · exact ⟨[g.group_size], rfl⟩
  · exact ⟨[], by simp⟩

theorem groupFold_append : ∀ (qs : List Nat) (g : GroupState),
    ∃ t, (qs.foldl groupStep g).group_ptr = g.group_ptr ++ t
  | [], g => ⟨[], by simp⟩
  | q :: qs, g => by
    obtain ⟨t1, h1⟩ := groupStep_append g q
    obtain ⟨t2, h2⟩ := groupFold_append qs (groupStep g q)
    exact ⟨t1 ++ t2, by simp [List.foldl_cons, h2, h1]⟩

theorem groupStep_inv (g : GroupState) (q : Nat)
    (h : g.last_group_id ≠ default_max → g.group_ptr ≠ []) :
    (groupStep g q).last_group_id ≠ default_max → (groupStep g q).group_ptr ≠ [] := by
  intro _
  unfold groupStep
  split_ifs with hc
  · simp
  · simp only
    push_neg at hc
    exact h hc.1

theorem groupFold_inv : ∀ (qs : List Nat) (g : GroupState),
    (g.last_group_id ≠ default_max → g.group_ptr ≠ []) →
    ((qs.foldl groupStep g).last_group_id ≠ default_max →
      (qs.foldl groupStep g).group_ptr ≠ [])
  | [], _, h => h
  | q :: qs, g, h => by
    simpa using groupFold_inv qs (groupStep g q) (groupStep_inv g q h)

theorem stepQids_inv (g : GroupState) (o : Option (List Nat))
    (h : g.last_group_id ≠ default_max → g.group_ptr ≠ []) :
    (stepQids g o).last_group_id ≠ default_max → (stepQids g o).group_ptr ≠ [] := by
  cases o with
  | none => exact h
  | some qs => exact groupFold_inv qs g h

theorem rowPageStep_group (memCost : SparsePage → Nat) (pageSize : Nat)
    (st : BuildState) (b : RowBlock) :
    (rowPageStep memCost pageSize st b).last_group_id
        = (stepQids (qidGroupState st) b.qid).last_group_id
    ∧ (rowPageStep memCost pageSize st b).group_size
        = (stepQids (qidGroupState st) b.qid).group_size
    ∧ (rowPageStep memCost pageSize st b).info.group_ptr
        = (stepQids (qidGroupState st) b.qid).group_ptr := by
  simp only [rowPageStep]
  split_ifs <;> exact ⟨rfl, rfl, by simp [addCounts]⟩

theorem rowPageFold_group_inv (memCost : SparsePage → Nat) (pageSize : Nat) :
    ∀ (blocks : List RowBlock) (st : BuildState),
    (st.last_group_id ≠ default_max → st.info.group_ptr ≠ []) →
    ((blocks.foldl (rowPageStep memCost pageSize) st).last_group_id ≠ default_max →
      (blocks.foldl (rowPageStep memCost pageSize) st).info.group_ptr ≠ [])
  | [], _, h => h
  | b :: blocks, st, h => by
    simp only [List.foldl_cons]
    refine rowPageFold_group_inv memCost pageSize blocks _ ?_
    obtain ⟨h1, h2, h3⟩ := rowPageStep_group memCost pageSize st b
    rw [h1, h3]
    exact stepQids_inv (qidGroupState st) b.qid h

/-! ## C10: the post-loop `group_ptr_.back()` access is in bounds -/

/-- Claim C10: in the streaming row-page builder, whenever the last-group-id
sentinel has been overwritten during the loop, `group_ptr` is non-empty at
loop exit (the first qid observation always appends a boundary), so the
post-loop `info.group_ptr_.back()` access of line 202 is within bounds. -/
theorem spec_c10_group_ptr_nonempty (memCost : SparsePage → Nat) (pageSize : Nat)
    (blocks : List RowBlock)
    (h : (rowPageState memCost pageSize blocks).last_group_id ≠ default_max) :
    (rowPageState memCost pageSize blocks).info.group_ptr ≠ [] := by
  refine rowPageFold_group_inv memCost pageSize blocks initBuild ?_ h
  intro hinit
  exact absurd rfl hinit

/-- Concrete instantiation of the C10 theorem: one block carrying the single
qid `7` overwrites the sentinel, and the resulting `group_ptr` is non-empty. -/
theorem spec_c10_group_ptr_nonempty_witness :
    (rowPageState (fun _ => 0) 1
        [{ size := 1, qid := some [7], offset := [0, 0] }]).info.group_ptr ≠ [] :=
  spec_c10_group_ptr_nonempty (fun _ => 0) 1
    [{ size := 1, qid := some [7], offset := [0, 0] }] (by decide)

/-! ## C3: the group-boundary algorithm -/

theorem claimed_step_eq (g : GroupState) (c : ClaimGroupState) (q : Nat)
    (hq : q ≠ default_max)
    (h1 : c.group_ptr = g.group_ptr) (h2 : c.group_size = g.group_size)
    (h3 : c.seen = if g.last_group_id = default_max then none
                   else some g.last_group_id) :
    (claimedGroupStep c q).group_ptr = (groupStep g q).group_ptr
    ∧ (claimedGroupStep c q).group_size = (groupStep g q).group_size
    ∧ (claimedGroupStep c q).seen
        = if (groupStep g q).last_group_id = default_max then none
          else some (groupStep g q).last_group_id := by
  unfold claimedGroupStep groupStep
  refine ⟨?_, by simp [h2], by simp [hq]⟩
  have hcond : (c.seen = none ∨ c.seen ≠ some q)
      ↔ (g.last_group_id = default_max ∨ g.last_group_id ≠ q) := by
    rw [h3]
    split_ifs with hs
    · simp [hs]
    · simp [hs]
  rw [h1, h2]
  split_ifs with ha hb hb
  · rfl
  · exact absurd (hcond.mp ha) hb
  · exact absurd (hcond.mpr hb) ha
  · rfl

theorem claimed_fold_eq : ∀ (qs : List Nat) (g : GroupState) (c : ClaimGroupState),
    (∀ q ∈ qs, q ≠ default_max) →
    c.group_ptr = g.group_ptr → c.group_size = g.group_size →
    (c.seen = if g.last_group_id = default_max then none
              else some g.last_group_id) →
    (qs.foldl claimedGroupStep c).group_ptr = (qs.foldl groupStep g).group_ptr
    ∧ (qs.foldl claimedGroupStep c).group_size = (qs.foldl groupStep g).group_size
    ∧ ((qs.foldl claimedGroupStep c).seen
        = if (qs.foldl groupStep g).last_group_id = default_max then none
          else some (qs.foldl groupStep g).last_group_id)
  | [], _, _, _, h1, h2, h3 => ⟨h1, h2, h3⟩
  | q :: qs, g, c, hq, h1, h2, h3 => by
    obtain ⟨e1, e2, e3⟩ :=
      claimed_step_eq g c q (hq q (List.mem_cons_self q qs)) h1 h2 h3
    simpa using claimed_fold_eq qs (groupStep g q) (claimedGroupStep c q)
      (fun p hp => hq p (List.mem_cons_of_mem q hp)) e1 e2 e3

/-- Counterexample to claim C3 as stated: on the qid stream consisting of the
single value `2^64 - 1` (a legal `uint64_t` qid that collides with the
builder's `last_group_id` sentinel), the claim's described procedure closes
the final group (a qid was seen and `group_size = 1` exceeds the last
boundary `0`), producing `[0, 1]`, but the code skips the close because
`last_group_id` still compares equal to the sentinel, producing `[0]`. -/
theorem spec_c3_counterexample :
    finalGroupPtr [18446744073709551615] = [0]
    ∧ claimedGroupPtr [18446744073709551615] = [0, 1]
    ∧ finalGroupPtr [18446744073709551615]
        ≠ claimedGroupPtr [18446744073709551615] := by
  refine ⟨by decide, by decide, by decide⟩

/-- Claim C3, amended: provided no qid equals `2^64 - 1` (the sentinel value
of `last_group_id`), the builder's group-boundary computation is exactly the
claim's procedure — a boundary equal to the running `group_size` is appended
for every row whose qid differs from the previously seen qid (including the
very first observation), and after the loop `group_size` is appended once
more when any qid was seen and it exceeds the last recorded boundary.
Moreover `group_ptr` always begins with `0` (for any stream), and the claim's
worked example holds in the full builder: a single batch with qid stream
`[1,1,2,2,2,3]` yields `group_ptr = [0, 2, 5, 6]`. -/
theorem spec_c3_group_boundaries_amended :
    (∀ qs : List Nat, (∀ q ∈ qs, q ≠ default_max) →
        finalGroupPtr qs = claimedGroupPtr qs)
    ∧ (∀ qs : List Nat, qs ≠ [] → (finalGroupPtr qs).head? = some 0)
    ∧ (rowPageInfo (fun _ => 0) 1
        [{ size := 6, qid := some [1, 1, 2, 2, 2, 3],
           offset := [0, 0, 0, 0, 0, 0, 0] }]).group_ptr = [0, 2, 5, 6] := by
  refine ⟨?_, ?_, by decide⟩
  · intro qs hq
    obtain ⟨e1, e2, e3⟩ := claimed_fold_eq qs ⟨[], default_max, 0⟩ ⟨[], none, 0⟩
      hq rfl rfl (by simp)
    simp only [finalGroupPtr, closeGroupPtr, claimedGroupPtr]
    rw [e1, e2, e3]
    by_cases hlast : (List.foldl groupStep
        ⟨[], default_max, 0⟩ qs).last_group_id = default_max
    · simp [hlast]
    · simp [hlast]
  · intro qs hqs
    match qs with
    | q :: qs =>
      have hfirst : (groupStep ⟨[], default_max, 0⟩ q).group_ptr = [0] := by
        unfold groupStep
        simp
      obtain ⟨t, ht⟩ := groupFold_append qs (groupStep ⟨[], default_max, 0⟩ q)
      unfold finalGroupPtr closeGroupPtr
      rw [List.foldl_cons]
      split_ifs <;> rw [ht, hfirst] <;> simp

/-- Concrete instantiation of the amended C3 theorem at the claim's example
stream. -/
theorem spec_c3_group_boundaries_amended_witness :
    finalGroupPtr [1, 1, 2, 2, 2, 3] = claimedGroupPtr [1, 1, 2, 2, 2, 3] :=
  spec_c3_group_boundaries_amended.1 [1, 1, 2, 2, 2, 3] (by decide)

/-! ## C4: the qid/num_row check at metadata-flush time -/

theorem dispatchPageType_fatal (pt : String) (b : SparsePage) (n : Nat)
    (e : BuilderError) (h : dispatchPageType pt b n = .fatal e) :
    e = .UnknownPageType := by
  unfold dispatchPageType at h
  split_ifs at h
  all_goals cases h
  rfl

theorem dmatrixLoop_fatal (pushFn : SparsePage → PushSource → SparsePage)
    (memCost : SparsePage → Nat) (pageSize : Nat) (pt : String) (n : Nat) :
    ∀ (bs : List SparsePage) (st : List SparsePage × SparsePage) (e : BuilderError),
    dmatrixLoop pushFn memCost pageSize pt n bs st = .fatal e →
      e = .UnknownPageType
  | [], _, _ => fun h => BuilderResult.noConfusion h
  | b :: bs, st, e => by
    intro h
    unfold dmatrixLoop at h
    cases hd : dispatchPageType pt b n with
    | fatal e0 =>
      rw [hd] at h
      dsimp only at h
      cases h
      exact dispatchPageType_fatal pt b n _ hd
    | ok src =>
      rw [hd] at h
      dsimp only at h
      split_ifs at h with hc
      · exact dmatrixLoop_fatal pushFn memCost pageSize pt n bs _ e h
      · exact dmatrixLoop_fatal pushFn memCost pageSize pt n bs _ e h

/-- Counterexample to claim C4 as stated: `CreatePageFromDMatrix` flushes a
metadata record whose qid list is non-empty but shorter than `num_row`
(`qids = [1]`, `num_row = 2`) by serializing it verbatim — the run completes
with `.ok` instead of failing fatally, because lines 271-275 perform no
`CHECK` on the copied `MetaInfo`. -/
theorem spec_c4_counterexample :
    CreatePageFromDMatrix (fun p _ => p) (fun _ => 0) 1 ".row.page"
        { qids := [1], num_row := 2 } []
      = .ok ({ qids := [1], num_row := 2 }, [])
    ∧ ({ qids := [1], num_row := 2 } : MetaInfo).qids.length ≠ 0
    ∧ ({ qids := [1], num_row := 2 } : MetaInfo).qids.length
        < ({ qids := [1], num_row := 2 } : MetaInfo).num_row :=
  ⟨by decide, by decide, by decide⟩

/-- Claim C4, amended: only the streaming row-page builder enforces the qid
invariant when flushing metadata — `CreateRowPage` fails fatally with
`GroupInvariant` exactly when the accumulated qid list is non-empty and its
length differs from `num_row` (line 216) — while `CreatePageFromDMatrix`
serializes the copied `MetaInfo` verbatim and can only fail with
`UnknownPageType`. -/
theorem spec_c4_qid_check_amended :
    (∀ (memCost : SparsePage → Nat) (pageSize : Nat) (blocks : List RowBlock),
        CreateRowPage memCost pageSize blocks = .fatal .GroupInvariant
          ↔ ((rowPageInfo memCost pageSize blocks).qids ≠ []
             ∧ (rowPageInfo memCost pageSize blocks).qids.length
                 ≠ (rowPageInfo memCost pageSize blocks).num_row))
    ∧ (∀ (pushFn : SparsePage → PushSource → SparsePage)
        (memCost : SparsePage → Nat) (pageSize : Nat) (page_type : String)
        (info : MetaInfo) (batches : List SparsePage) (e : BuilderError),
        CreatePageFromDMatrix pushFn memCost pageSize page_type info batches
            = .fatal e →
          e = .UnknownPageType) := by
  constructor
  · intro memCost pageSize blocks
    simp only [CreateRowPage]
    split_ifs with h
    · refine ⟨fun hc => absurd hc (by simp), fun hc => ?_⟩
      rcases h with h | h
      · exact absurd h hc.1
      · exact absurd h hc.2
    · push_neg at h
      exact ⟨fun _ => h, fun _ => rfl⟩
  · intro pushFn memCost pageSize page_type info batches e h
    unfold CreatePageFromDMatrix at h
    cases hl : dmatrixLoop pushFn memCost pageSize page_type info.num_col
        batches ([], emptyPage) with
    | fatal e0 =>
      rw [hl] at h
      dsimp only at h
      cases h
      exact dmatrixLoop_fatal pushFn memCost pageSize page_type info.num_col
        batches ([], emptyPage) _ hl
    | ok st =>
      rw [hl] at h
      dsimp only at h
      exact BuilderResult.noConfusion h

/-- Concrete instantiation of the amended C4 theorem: a parser stream whose
only block has two rows but a single qid makes `CreateRowPage` fail fatally
with `GroupInvariant`. -/
theorem spec_c4_qid_check_amended_witness :
    CreateRowPage (fun _ => 0) 1
        [{ size := 2, qid := some [1], offset := [0, 0, 0] }]
      = .fatal .GroupInvariant :=
  (spec_c4_qid_check_amended.1 (fun _ => 0) 1
    [{ size := 2, qid := some [1], offset := [0, 0, 0] }]).mpr (by decide)

/-! ## C9: the trailing page is flushed iff it is non-empty -/

/-- Claim C9: after the input loop, each builder hands the trailing page to
the shard writer if and only if `page->data.Size() != 0` — `CreateRowPage`
at lines 207-209, `CreatePageFromDMatrix` at lines 267-269. -/
theorem spec_c9_trailing_flush :
    (∀ (memCost : SparsePage → Nat) (pageSize : Nat) (blocks : List RowBlock),
        ((rowPageState memCost pageSize blocks).page.data.length = 0 →
          rowPagePages memCost pageSize blocks
            = (rowPageState memCost pageSize blocks).written)
        ∧ ((rowPageState memCost pageSize blocks).page.data.length ≠ 0 →
          rowPagePages memCost pageSize blocks
            = (rowPageState memCost pageSize blocks).written
                ++ [(rowPageState memCost pageSize blocks).page]))
    ∧ (∀ (pushFn : SparsePage → PushSource → SparsePage)
        (memCost : SparsePage → Nat) (pageSize : Nat) (page_type : String)
        (info : MetaInfo) (batches : List SparsePage)
        (st : List SparsePage × SparsePage),
        dmatrixLoop pushFn memCost pageSize page_type info.num_col batches
            ([], emptyPage) = .ok st →
          ((st.2.data.length = 0 →
            CreatePageFromDMatrix pushFn memCost pageSize page_type info batches
              = .ok (info, st.1))
          ∧ (st.2.data.length ≠ 0 →
            CreatePageFromDMatrix pushFn memCost pageSize page_type info batches
              = .ok (info, st.1 ++ [st.2])))) := by
  constructor
  · intro memCost pageSize blocks
    constructor
    · intro h0
      simp [rowPagePages, h0]
    · intro h0
      simp [rowPagePages, h0]
  · intro pushFn memCost pageSize page_type info batches st hl
    unfold CreatePageFromDMatrix
    rw [hl]
    dsimp only
    constructor
    · intro h0
      simp [h0]
    · intro h0
      simp [h0]

/-- Concrete instantiation of the C9 theorem: with no input the trailing page
is empty and nothing is written in either builder. -/
theorem spec_c9_trailing_flush_witness :
    rowPagePages (fun _ => 0) 1 [] = []
    ∧ CreatePageFromDMatrix (fun p _ => p) (fun _ => 0) 1 ".row.page"
        ({} : MetaInfo) [] = .ok ({}, []) :=
  ⟨((spec_c9_trailing_flush.1 (fun _ => 0) 1 []).1 rfl).trans rfl,
   (spec_c9_trailing_flush.2 (fun p _ => p) (fun _ => 0) 1 ".row.page" {} []
      ([], emptyPage) rfl).1 rfl⟩

/-! ## C6: page-type dispatch of the matrix builder -/

/-- Claim C6: `CreatePageFromDMatrix` maps `.row.page` to pushing the batch
as-is, `.col.page` to pushing its transpose with `num_col` columns,
`.sorted.col.page` to pushing the transpose with sorted rows, and fails
fatally with `UnknownPageType` on any other page-type string. -/
theorem spec_c6_page_type_dispatch (b : SparsePage) (n : Nat) :
    dispatchPageType ".row.page" b n = .ok (.asIs b)
    ∧ dispatchPageType ".col.page" b n = .ok (.transpose b n)
    ∧ dispatchPageType ".sorted.col.page" b n = .ok (.sortedTranspose b n)
    ∧ ∀ pt : String, pt ≠ ".row.page" → pt ≠ ".col.page" →
        pt ≠ ".sorted.col.page" →
        dispatchPageType pt b n = .fatal .UnknownPageType := by
  refine ⟨?_, ?_, ?_, ?_⟩
  · unfold dispatchPageType
    rw [if_pos rfl]
  · unfold dispatchPageType
    rw [if_neg (by decide), if_pos rfl]
  · unfold dispatchPageType
    rw [if_neg (by decide), if_neg (by decide), if_pos rfl]
  · intro pt h1 h2 h3
    unfold dispatchPageType
    rw [if_neg h1, if_neg h2, if_neg h3]

/-- Concrete instantiation of the C6 theorem: the spec's S3 scenario, a
`.bogus` page type is a fatal `UnknownPageType`. -/
theorem spec_c6_page_type_dispatch_witness :
    dispatchPageType ".bogus" emptyPage 3 = .fatal .UnknownPageType :=
  (spec_c6_page_type_dispatch emptyPage 3).2.2.2 ".bogus"
    (by decide) (by decide) (by decide)

/-! ## C5: cache-spec shard resolution -/

/-- Claim C5: the shard path resolver splits the cache spec on `':'`; on
drive-letter platforms a leading single alphabetic character followed by
`':'` is kept as part of the first prefix; an empty resulting shard list is
a fatal `BadCacheSpec` error (`CHECK_NE(cache_shards.size(), 0U)`). -/
theorem spec_c5_cache_shard_resolution (s : String) :
    (checkedCacheShardsUnix s = .fatal .BadCacheSpec ↔ GetCacheShardsUnix s = [])
    ∧ GetCacheShardsUnix "a:b:c" = ["a", "b", "c"]
    ∧ GetCacheShardsUnix "" = []
    ∧ checkedCacheShardsUnix "" = .fatal .BadCacheSpec
    ∧ GetCacheShardsUnix "C:\\tmp\\x:y" = ["C", "\\tmp\\x", "y"]
    ∧ GetCacheShardsWin "C:\\tmp\\x:y" = some ["C:\\tmp\\x", "y"] := by
  refine ⟨?_, by decide, by decide, by decide, by decide, by decide⟩
  simp only [checkedCacheShardsUnix]
  split_ifs with h
  · exact ⟨fun _ => List.length_eq_zero.mp h, fun _ => rfl⟩
  · refine ⟨fun hc => absurd hc (by simp), fun he => ?_⟩
    rw [he] at h
    exact absurd rfl h

/-! ## C8: the column-count computation -/

theorem addLabels_num_col (info : MetaInfo) (o : Option (List Int)) :
    (addLabels info o).num_col = info.num_col := by
  cases o <;> rfl

theorem addWeights_num_col (info : MetaInfo) (o : Option (List Int)) :
    (addWeights info o).num_col = info.num_col := by
  cases o <;> rfl

theorem addQidList_num_col (info : MetaInfo) (o : Option (List Nat)) :
    (addQidList info o).num_col = info.num_col := by
  cases o <;> rfl

theorem rowPageStep_num_col (memCost : SparsePage → Nat) (pageSize : Nat)
    (st : BuildState) (b : RowBlock) :
    (rowPageStep memCost pageSize st b).info.num_col
      = (blockIndexSlice b).foldl numColStep st.info.num_col := by
  simp only [rowPageStep]
  split_ifs <;>
    simp [addCounts, addQidList_num_col, addWeights_num_col, addLabels_num_col]

theorem rowPageFold_num_col (memCost : SparsePage → Nat) (pageSize : Nat) :
    ∀ (blocks : List RowBlock) (st : BuildState),
    (blocks.foldl (rowPageStep memCost pageSize) st).info.num_col
      = (blocks.flatMap blockIndexSlice).foldl numColStep st.info.num_col
  | [], st => by simp
  | b :: blocks, st => by
    simp only [List.foldl_cons, List.flatMap_cons, List.foldl_append]
    rw [rowPageFold_num_col memCost pageSize blocks, rowPageStep_num_col]

theorem numColOf_unwrap : ∀ (idxs : List Nat), (∀ i ∈ idxs, i + 1 < 2 ^ 32) →
    ∀ a, idxs.foldl numColStep a = idxs.foldl (fun c i => max c (i + 1)) a
  | [], _, _ => rfl
  | i :: idxs, h, a => by
    simp only [List.foldl_cons]
    rw [numColOf_unwrap idxs (fun j hj => h j (List.mem_cons_of_mem i hj))]
    congr 1
    unfold numColStep
    rw [Nat.mod_eq_of_lt (h i (List.mem_cons_self i idxs))]

theorem foldl_max_succ : ∀ (idxs : List Nat) (a : Nat),
    idxs.foldl (fun c i => max c (i + 1)) (a + 1) = idxs.foldl max a + 1
  | [], _ => rfl
  | i :: idxs, a => by
    simp only [List.foldl_cons]
    rw [← foldl_max_succ idxs (max a i)]
    congr 1
    omega

theorem numColOf_no_wrap : ∀ (idxs : List Nat),
    (∀ i ∈ idxs, i + 1 < 2 ^ 32) → idxs ≠ [] →
    numColOf idxs = idxs.foldl max 0 + 1
  | i :: idxs, h, _ => by
    unfold numColOf
    rw [numColOf_unwrap _ h]
    simp only [List.foldl_cons]
    have h0 : max 0 (i + 1) = (max 0 i) + 1 := by omega
    rw [h0, foldl_max_succ idxs (max 0 i)]

/-- Counterexample to claim C8 as stated: for a block whose nonzeros have
column indices `[4294967295, 5]` (both legal `uint32_t` values), the claimed
value `1 + max(index)` is `2^32`, but the builder computes `num_col = 6`:
the increment `index + 1` wraps to `0` on the 32-bit index before the
64-bit `max`. -/
theorem spec_c8_counterexample :
    (rowPageInfo (fun _ => 0) 1
        [{ size := 1, offset := [0, 2], index := [4294967295, 5] }]).num_col = 6
    ∧ claimedNumCol [4294967295, 5] = 4294967296
    ∧ (rowPageInfo (fun _ => 0) 1
        [{ size := 1, offset := [0, 2], index := [4294967295, 5] }]).num_col
      ≠ claimedNumCol [4294967295, 5] :=
  ⟨by decide, by decide, by decide⟩

/-- Claim C8, amended: the streaming row-page builder computes `num_col` as
the maximum over all nonzero entries of `(index + 1) mod 2^32` (the
increment is performed on the 32-bit unsigned index before widening to 64
bits); when no index equals `2^32 - 1` this is `1 + max(index)` for a
non-empty nonzero list, and an input with zero nonzeros yields
`num_col = 0`. -/
theorem spec_c8_num_col_amended (memCost : SparsePage → Nat) (pageSize : Nat)
    (blocks : List RowBlock) :
    (rowPageInfo memCost pageSize blocks).num_col
        = numColOf (blocks.flatMap blockIndexSlice)
    ∧ ((∀ i ∈ blocks.flatMap blockIndexSlice, i + 1 < 2 ^ 32) →
        blocks.flatMap blockIndexSlice ≠ [] →
        numColOf (blocks.flatMap blockIndexSlice)
          = (blocks.flatMap blockIndexSlice).foldl max 0 + 1)
    ∧ (blocks.flatMap blockIndexSlice = [] →
        (rowPageInfo memCost pageSize blocks).num_col = 0) := by
  have hmain : (rowPageInfo memCost pageSize blocks).num_col
      = numColOf (blocks.flatMap blockIndexSlice) :=
    rowPageFold_num_col memCost pageSize blocks initBuild
  refine ⟨hmain, fun h hne => numColOf_no_wrap _ h hne, fun he => ?_⟩
  rw [hmain, he]
  rfl

/-- Concrete instantiation of the amended C8 theorem: indices `[3, 1]` give
`num_col = 4`. -/
theorem spec_c8_num_col_amended_witness :
    (rowPageInfo (fun _ => 0) 1
        [{ size := 1, offset := [0, 2], index := [3, 1] }]).num_col = 4 := by
  have h := spec_c8_num_col_amended (fun _ => 0) 1
      [{ size := 1, offset := [0, 2], index := [3, 1] }]
  exact h.1.trans ((h.2.1 (by decide) (by decide)).trans (by decide))

/-! ## The reader invariant and its preservation -/

theorem readerInv_init (s : List (List SparsePage)) :
    ReaderInv s 0 (initSource s) := by
  refine ⟨rfl, by simp [initSource], ?_, by simp [initSource], rfl⟩
  intro i _
  simp only [initSource]
  rw [getD_replicate_zero, cnt_zero]

theorem next_success (s : List (List SparsePage)) (hk : 0 < s.length) (j : Nat)
    (r : SparsePageSource) (hinv : ReaderInv s j r)
    (hok : j / s.length < lenAt s (j % s.length)) :
    r.Next = (true,
      { r with
        page := some (stampedAt s j)
        pos := r.pos.set (j % s.length) (j / s.length + 1)
        base_rowid := sumSizes s (j + 1)
        clock_ptr := (j + 1) % s.length }) := by
  obtain ⟨hsh, hlen, hpos, hclk, hbase⟩ := hinv
  have hp : r.pos.getD (j % s.length) 0 = j / s.length := by
    rw [hpos _ (Nat.mod_lt j hk), cnt_self]
  have hok' : j / s.length < (s.getD (j % s.length) []).length := hok
  have hpageAt : pageAt s j = (s.getD (j % s.length) []).get ⟨j / s.length, hok'⟩ := by
    unfold pageAt
    rw [List.getD_eq_get?, List.get?_eq_get hok']
    rfl
  have hget : (s.getD (j % s.length) []).get? (j / s.length) = some (pageAt s j) := by
    rw [List.get?_eq_get hok', hpageAt]
  simp only [SparsePageSource.Next, hsh, hclk, hp, hget]
  rw [hbase, sumSizes_succ, mod_succ_mod j hk]
  rfl

theorem next_failure (s : List (List SparsePage)) (hk : 0 < s.length) (j : Nat)
    (r : SparsePageSource) (hinv : ReaderInv s j r)
    (hnok : ¬ j / s.length < lenAt s (j % s.length)) :
    r.Next = (false, { r with page := none }) := by
  obtain ⟨hsh, hlen, hpos, hclk, hbase⟩ := hinv
  have hp : r.pos.getD (j % s.length) 0 = j / s.length := by
    rw [hpos _ (Nat.mod_lt j hk), cnt_self]
  have hget : (s.getD (j % s.length) []).get? (j / s.length) = none :=
    List.get?_eq_none.mpr (Nat.le_of_not_lt hnok)
  simp only [SparsePageSource.Next, hsh, hclk, hp, hget]

theorem iter_good (s : List (List SparsePage)) (hk : 0 < s.length) :
    ∀ (j : Nat), (∀ m, m < j → m / s.length < lenAt s (m % s.length)) →
    ReaderInv s j ((initSource s).iter j)
  | 0, _ => readerInv_init s
  | j + 1, h => by
    have hprev := iter_good s hk j (fun m hm => h m (Nat.lt_succ_of_lt hm))
    have hstep := next_success s hk j _ hprev (h j (Nat.lt_succ_self j))
    show ReaderInv s (j + 1) (((initSource s).iter j).Next).2
    rw [hstep]
    obtain ⟨hsh, hlen, hpos, hclk, hbase⟩ := hprev
    refine ⟨hsh, by simpa using hlen, ?_, rfl, rfl⟩
    intro i hi
    by_cases hieq : i = j % s.length
    · subst hieq
      rw [getD_set_self _ _ _ (by rw [hlen]; exact Nat.mod_lt j hk)]
      rw [cnt_succ j hk hi, if_pos rfl, cnt_self]
    · rw [getD_set_ne _ _ _ _ hieq, hpos i hi, cnt_succ j hk hi, if_neg hieq]

theorem next_false_shape (r : SparsePageSource) (h : (r.Next).1 = false) :
    (r.Next).2 = { r with page := none } := by
  cases hm : (r.shards.getD r.clock_ptr []).get? (r.pos.getD r.clock_ptr 0) with
  | some pg =>
    simp only [SparsePageSource.Next, hm] at h
    exact Bool.noConfusion h
  | none =>
    simp only [SparsePageSource.Next, hm]

theorem iter_stuck (s : List (List SparsePage)) (hk : 0 < s.length) (N : Nat)
    (hgood : ∀ m, m < N → m / s.length < lenAt s (m % s.length))
    (hbad : ¬ N / s.length < lenAt s (N % s.length)) :
    ∀ (i : Nat), resultAt (initSource s) (N + i) = false
      ∧ (initSource s).iter (N + i + 1)
          = { (initSource s).iter N with page := none } := by
  have hinvN := iter_good s hk N hgood
  have hfail := next_failure s hk N _ hinvN hbad
  have hinv' : ReaderInv s N { (initSource s).iter N with page := none } := by
    obtain ⟨a, b, c, d, e⟩ := hinvN
    exact ⟨a, b, c, d, e⟩
  have hfail' := next_failure s hk N _ hinv' hbad
  intro i
  induction i with
  | zero =>
    constructor
    · show (((initSource s).iter N).Next).1 = false
      rw [hfail]
    · show (((initSource s).iter N).Next).2 = _
      rw [hfail]
  | succ i ih =>
    obtain ⟨_, hst⟩ := ih
    constructor
    · show (((initSource s).iter (N + i + 1)).Next).1 = false
      rw [hst, hfail']
    · show (((initSource s).iter (N + i + 1)).Next).2 = _
      rw [hst, hfail']

/-! ## C1: round-robin order and first-exhausted-shard termination -/

/-- Claim C1: over `k` shards, the `(j+1)`-st `Next` call of a pass succeeds
iff every call up to it reads a page that exists — i.e. iff for all `m ≤ j`
shard `m % k` holds more than `m / k` pages; while that holds, the `j`-th
yielded page is the `(j / k)`-th page of shard `j % k` (strict round-robin
`0, 1, …, k-1, 0, …`) and the clock advances to `(j+1) % k`; the pass
therefore ends at the first shard that reports no page even if other shards
still have pages, and a failed call changes nothing but the dropped page
pointer, so every later call fails as well (until `BeforeFirst`, whose
restart behaviour is the C7 theorem). -/
theorem spec_c1_round_robin_pass (s : List (List SparsePage)) (hk : 0 < s.length)
    (j : Nat) :
    (resultAt (initSource s) j = true
        ↔ ∀ m, m ≤ j → m / s.length < lenAt s (m % s.length))
    ∧ ((∀ m, m ≤ j → m / s.length < lenAt s (m % s.length)) →
        ((initSource s).iter (j + 1)).page = some (stampedAt s j)
        ∧ ((initSource s).iter (j + 1)).clock_ptr = (j + 1) % s.length)
    ∧ (resultAt (initSource s) j = false →
        (initSource s).iter (j + 1) = { (initSource s).iter j with page := none }) := by
  have hforward : (∀ m, m ≤ j → m / s.length < lenAt s (m % s.length)) →
      resultAt (initSource s) j = true := by
    intro h
    have hinv := iter_good s hk j (fun m hm => h m (Nat.le_of_lt hm))
    have hstep := next_success s hk j _ hinv (h j (Nat.le_refl j))
    show (((initSource s).iter j).Next).1 = true
    rw [hstep]
  have hback : ¬ (∀ m, m ≤ j → m / s.length < lenAt s (m % s.length)) →
      resultAt (initSource s) j = false := by
    intro h
    push_neg at h
    obtain ⟨m0, hm0le, hm0⟩ := h
    have hm0' : ¬ m0 / s.length < lenAt s (m0 % s.length) := Nat.not_lt.mpr hm0
    have hex : ∃ m, ¬ m / s.length < lenAt s (m % s.length) := ⟨m0, hm0'⟩
    have hNle : Nat.find hex ≤ m0 := Nat.find_min' hex hm0'
    have hbad := Nat.find_spec hex
    have hgood : ∀ m, m < Nat.find hex →
        m / s.length < lenAt s (m % s.length) := by
      intro m hm
      exact not_not.mp (Nat.find_min hex hm)
    have hstuck := iter_stuck s hk (Nat.find hex) hgood hbad (j - Nat.find hex)
    have heq : Nat.find hex + (j - Nat.find hex) = j := by omega
    rw [heq] at hstuck
    exact hstuck.1
  refine ⟨⟨fun ht => ?_, hforward⟩, fun h => ?_, fun hf => next_false_shape _ hf⟩
  · by_contra hc
    rw [hback hc] at ht
    exact Bool.noConfusion ht
  · have hinv := iter_good s hk (j + 1) (fun m hm => h m (Nat.lt_succ_iff.mp hm))
    have hstep := next_success s hk j _
      (iter_good s hk j (fun m hm => h m (Nat.le_of_lt hm))) (h j (Nat.le_refl j))
    constructor
    · show (((initSource s).iter j).Next).2.page = _
      rw [hstep]
    · exact hinv.2.2.2.1

/-- Concrete instantiation of the C1 theorem: with two one-page shards the
first call succeeds. -/
theorem spec_c1_round_robin_pass_witness :
    resultAt (initSource [[⟨0, 1, []⟩], [⟨0, 2, []⟩]]) 0 = true :=
  (spec_c1_round_robin_pass [[⟨0, 1, []⟩], [⟨0, 2, []⟩]] (by decide) 0).1.mpr
    (by decide)

/-! ## C2: `base_rowid` stamping -/

/-- Claim C2: while the pass is still succeeding, the `j`-th yielded page is
stamped with the cursor counter — its `base_rowid` is the total row count of
the pages yielded before it, starting from `0` — and the counter then
advances by the page's row count. -/
theorem spec_c2_base_rowid_prefix_sums (s : List (List SparsePage))
    (hk : 0 < s.length) (j : Nat)
    (h : ∀ m, m ≤ j → m / s.length < lenAt s (m % s.length)) :
    ((initSource s).iter (j + 1)).page
        = some { pageAt s j with base_rowid := sumSizes s j }
    ∧ ((initSource s).iter (j + 1)).base_rowid
        = sumSizes s j + (pageAt s j).rows := by
  have hstep := next_success s hk j _
    (iter_good s hk j (fun m hm => h m (Nat.le_of_lt hm))) (h j (Nat.le_refl j))
  constructor
  · show (((initSource s).iter j).Next).2.page = _
    rw [hstep]
    show some (stampedAt s j) = _
    rfl
  · show (((initSource s).iter j).Next).2.base_rowid = _
    rw [hstep]
    show sumSizes s (j + 1) = _
    exact sumSizes_succ s j

/-- Concrete instantiation of the C2 theorem: the spec's clock-interleaving
scenario — three shards of two 10-row pages each; the sixth yielded page is
stamped with `base_rowid = 50`. -/
theorem spec_c2_base_rowid_prefix_sums_witness :
    ((initSource [[⟨0, 10, []⟩, ⟨0, 10, []⟩], [⟨0, 10, []⟩, ⟨0, 10, []⟩],
        [⟨0, 10, []⟩, ⟨0, 10, []⟩]]).iter 6).page
      = some { pageAt [[⟨0, 10, []⟩, ⟨0, 10, []⟩], [⟨0, 10, []⟩, ⟨0, 10, []⟩],
          [⟨0, 10, []⟩, ⟨0, 10, []⟩]] 5 with
          base_rowid := sumSizes [[⟨0, 10, []⟩, ⟨0, 10, []⟩],
            [⟨0, 10, []⟩, ⟨0, 10, []⟩], [⟨0, 10, []⟩, ⟨0, 10, []⟩]] 5 } :=
  (spec_c2_base_rowid_prefix_sums [[⟨0, 10, []⟩, ⟨0, 10, []⟩],
    [⟨0, 10, []⟩, ⟨0, 10, []⟩], [⟨0, 10, []⟩, ⟨0, 10, []⟩]]
    (by decide) 5 (by decide)).1

/-! ## C7: `BeforeFirst` restarts an identical pass -/

theorem next_ext (r1 r2 : SparsePageSource) (h1 : r1.shards = r2.shards)
    (h2 : r1.pos = r2.pos) (h3 : r1.base_rowid = r2.base_rowid)
    (h4 : r1.clock_ptr = r2.clock_ptr) : r1.Next = r2.Next := by
  cases r1
  cases r2
  dsimp only at h1 h2 h3 h4
  subst h1
  subst h2
  subst h3
  subst h4
  rfl

theorem bf_iter (r : SparsePageSource) :
    ∀ (n : Nat), (r.BeforeFirst).iter (n + 1) = (initSource r.shards).iter (n + 1)
  | 0 => by
    show ((r.BeforeFirst).Next).2 = ((initSource r.shards).Next).2
    rw [next_ext r.BeforeFirst (initSource r.shards) rfl rfl rfl rfl]
  | n + 1 => by
    show (((r.BeforeFirst).iter (n + 1)).Next).2 = _
    rw [bf_iter r n]
    rfl

theorem bf_result (r : SparsePageSource) :
    ∀ (j : Nat), resultAt r.BeforeFirst j = resultAt (initSource r.shards) j
  | 0 => by
    show ((r.BeforeFirst).Next).1 = ((initSource r.shards).Next).1
    rw [next_ext r.BeforeFirst (initSource r.shards) rfl rfl rfl rfl]
  | j + 1 => by
    show (((r.BeforeFirst).iter (j + 1)).Next).1 = _
    rw [bf_iter r j]
    rfl

/-- Claim C7: `BeforeFirst` resets `base_rowid_` to `0`, `clock_ptr_` to `0`
and rewinds every shard stream; from any reader state — in particular after
a full drain — the restarted pass is step-for-step identical to a fresh pass
over the same shards: same `Next` results, same cursor counters, same
stamped pages (hence the identical `base_rowid` sequence). -/
theorem spec_c7_before_first_restart (r : SparsePageSource) :
    (r.BeforeFirst.base_rowid = 0
      ∧ r.BeforeFirst.clock_ptr = 0
      ∧ r.BeforeFirst.pos = List.replicate r.shards.length 0)
    ∧ (∀ j, resultAt r.BeforeFirst j = resultAt (initSource r.shards) j)
    ∧ (∀ j, (r.BeforeFirst.iter (j + 1)).base_rowid
          = ((initSource r.shards).iter (j + 1)).base_rowid
        ∧ (r.BeforeFirst.iter (j + 1)).page
          = ((initSource r.shards).iter (j + 1)).page) :=
  ⟨⟨rfl, rfl, rfl⟩, bf_result r, fun j => by rw [bf_iter r j]; exact ⟨rfl, rfl⟩⟩
